import Mathlib

/-!
Shallow embedding of the query-engine core of the `q` command-line tool
(src/src/core/{retry,cache,stream,mod}.rs and src/src/api/{mod,openai}.rs),
together with theorems checking the natural-language specification against it.

Conventions of the embedding:
* Rust `Result<T, E>` becomes `Except E T`.
* Durations are abstract natural numbers; wall-clock time is a natural number
  of seconds (the cache only ever compares `Instant::elapsed().as_secs()`
  against a whole number of seconds).
* The async operation passed to the retry loop is modelled as a function
  from the invocation index (0-based) to the result of that invocation.
* The successive results of `ExponentialBackoff::next_backoff()` are modelled
  as an oracle `bo : Nat -> Option Nat`: `bo k` is the value returned by the
  (k+1)-th call to `next_backoff` (`none` once the elapsed time exceeds the
  configured `max_elapsed_time = max_delay * max_retries`; the concrete delay
  values are randomized by the backoff crate and never matter here).
-/

/-- Error type of the API layer, from `src/src/api/mod.rs` (`ApiError`).
`Network` carries the display text of the underlying `reqwest::Error`. -/
inductive ApiError where
  | Network (msg : String)
  | RateLimit
  | InvalidKey
  | Other (msg : String)
deriving DecidableEq

/-- Display form of `ApiError`, from the `thiserror` attributes in
`src/src/api/mod.rs`. -/
def ApiError.display : ApiError → String
  | .Network msg => "Network error: " ++ msg
  | .RateLimit => "Rate limit exceeded"
  | .InvalidKey => "Invalid API key"
  | .Other msg => "API error: " ++ msg

/-- `ApiError::is_retryable` from `src/src/api/mod.rs`. -/
def ApiError.is_retryable : ApiError → Bool
  | .Network _ => true
  | .RateLimit => true
  | .InvalidKey => false
  | .Other _ => false

/-- Error type of the core layer, from `src/src/core/mod.rs` (`CoreError`). -/
inductive CoreError where
  | Api (e : ApiError)
  | Cache (msg : String)
  | Retry (msg : String)
  | Stream (msg : String)
  | Other (msg : String)
deriving DecidableEq

/-- Display form of `CoreError`, from the `thiserror` attributes in
`src/src/core/mod.rs`. -/
def CoreError.display : CoreError → String
  | .Api e => "API error: " ++ e.display
  | .Cache msg => "Cache error: " ++ msg
  | .Retry msg => "Retry error: " ++ msg
  | .Stream msg => "Stream error: " ++ msg
  | .Other msg => "Other error: " ++ msg

deriving instance DecidableEq for Except

/-- `CoreResult<T>` from `src/src/core/mod.rs`. -/
abbrev CoreResult (T : Type) : Type := Except CoreError T

/-- `should_retry` from `src/src/core/retry.rs` lines 53-63. -/
def should_retry (error : CoreError) : Bool :=
  match error with
  | .Api apiError =>
    match apiError with
    | .Network _ => true
    | .RateLimit => true
    | _ => false
  | .Stream _ => true
  | _ => false

/-- Loop body of `with_backoff` from `src/src/core/retry.rs` lines 27-49.
`op i` is the result of the (i+1)-th invocation of `operation` (every
invocation before the current one failed, so the invocation index equals the
current value of the `attempt` counter).  `bo k` is the result of the (k+1)-th
call to `backoff.next_backoff()`.  The second component of the returned pair
is the total number of invocations of `operation` performed. -/
def with_backoff_go {T : Type} (op : Nat → CoreResult T) (max_retries : Nat)
    (bo : Nat → Option Nat) (attempt : Nat) : CoreResult T × Nat :=
  match op attempt with
  | .ok value => (.ok value, attempt + 1)
  | .error err =>
    if h : attempt + 1 ≥ max_retries then
      (.error (.Retry ("Operation failed after " ++ toString (attempt + 1)
        ++ " attempts: " ++ err.display)), attempt + 1)
    else
      match bo attempt with
      | some _ => with_backoff_go op max_retries bo (attempt + 1)
      | none => (.error (.Retry "Retry timeout exceeded"), attempt + 1)
termination_by max_retries - attempt
decreasing_by omega

/-- `with_backoff` from `src/src/core/retry.rs`: runs the loop starting from
`attempt = 0`.  Returns the result together with the number of times the
operation was invoked. -/
def with_backoff {T : Type} (op : Nat → CoreResult T) (max_retries : Nat)
    (bo : Nat → Option Nat) : CoreResult T × Nat :=
  with_backoff_go op max_retries bo 0

/-- First value bound to `key` in an association list (models `HashMap::get`;
keys are unique by construction). -/
def assocGet : List (String × Nat × String) → String → Option (Nat × String)
  | [], _ => none
  | (k, tv) :: rest, key => if k = key then some tv else assocGet rest key

/-- Remove the binding of `key` (models `HashMap::remove`). -/
def assocErase : List (String × Nat × String) → String → List (String × Nat × String)
  | [], _ => []
  | (k, tv) :: rest, key =>
    if k = key then rest else (k, tv) :: assocErase rest key

/-- Replace the binding of `key`, or append it (models `HashMap::insert`). -/
def assocPut : List (String × Nat × String) → String → Nat × String →
    List (String × Nat × String)
  | [], key, tv => [(key, tv)]
  | (k, tv0) :: rest, key, tv =>
    if k = key then (k, tv) :: rest else (k, tv0) :: assocPut rest key tv

/-- Model of `cached::TimedCache<String, String>` as used by `QueryCache`
(`src/src/core/cache.rs`): a map from key to `(inserted_at, value)` plus the
configured lifespan in seconds.  In the `cached` crate a `TimedCache` expires
entries by time only; it has no capacity bound of any kind. -/
structure TimedCache where
  store : List (String × Nat × String)
  seconds : Nat
deriving DecidableEq

/-- `QueryCache::new(size, ttl)` from `src/src/core/cache.rs` lines 12-19,
which calls `TimedCache::with_lifespan_and_capacity(ttl.as_secs(), size)`.
In the `cached` crate the `size` argument of that constructor is only an
initial allocation hint for the backing `HashMap`; it does not bound the
number of entries, so it does not appear in the state. -/
def QueryCache.new (size : Nat) (ttl : Nat) : TimedCache :=
  let _ := size
  { store := [], seconds := ttl }

/-- `QueryCache::get` (`src/src/core/cache.rs` lines 22-28), i.e.
`TimedCache::cache_get` of the `cached` crate at wall-clock second `now`:
a hit iff the entry is present and `elapsed < seconds` (strictly); an entry
found expired is removed from the store and reported as a miss.  Returns the
looked-up value together with the cache state after the call. -/
def cache_get (c : TimedCache) (now : Nat) (key : String) :
    Option String × TimedCache :=
  match assocGet c.store key with
  | none => (none, c)
  | some (t, v) =>
    if now - t < c.seconds then (some v, c)
    else (none, { c with store := assocErase c.store key })

/-- `QueryCache::insert` (`src/src/core/cache.rs` lines 31-36), i.e.
`TimedCache::cache_set`: unconditionally inserts `(Instant::now(), value)`
under `key`.  No eviction of any other entry takes place. -/
def cache_set (c : TimedCache) (now : Nat) (key value : String) : TimedCache :=
  { c with store := assocPut c.store key (now, value) }

/-- `QueryCache::len` (`src/src/core/cache.rs` lines 47-52), i.e.
`TimedCache::cache_size`: the number of stored entries, expired ones
included. -/
def cache_size (c : TimedCache) : Nat :=
  c.store.length

/-- JSON values, modelling `serde_json::Value` over the fragment the code
exercises.  Numbers are kept as their source text: the streaming code never
reads a numeric value, it only needs number tokens to parse. -/
inductive Json where
  | null
  | bool (b : Bool)
  | num (text : String)
  | str (s : String)
  | arr (elems : List Json)
  | obj (fields : List (String × Json))

/-- Skip JSON whitespace (space, tab, line feed, carriage return), exactly the
characters `serde_json` treats as whitespace. -/
def skipWs : List Char → List Char
  | [] => []
  | c :: cs =>
    if c = ' ' ∨ c = '\t' ∨ c = '\n' ∨ c = '\r' then skipWs cs else c :: cs

/-- Value of a hexadecimal digit. -/
def hexDigitVal : Char → Option Nat
  | c =>
    if '0' ≤ c ∧ c ≤ '9' then some (c.toNat - '0'.toNat)
    else if 'a' ≤ c ∧ c ≤ 'f' then some (c.toNat - 'a'.toNat + 10)
    else if 'A' ≤ c ∧ c ≤ 'F' then some (c.toNat - 'A'.toNat + 10)
    else none

/-- Parse the body of a JSON string literal (after the opening quote),
returning the decoded string and the input after the closing quote.
Escapes are the JSON ones; `\u` escapes for surrogate code units are
rejected (surrogate pairs are not modelled), and raw control characters are
rejected as `serde_json` does. -/
def parseStringBody : List Char → List Char → Option (String × List Char)
  | [], _ => none
  | '"' :: rest, acc => some (String.mk acc.reverse, rest)
  | '\\' :: '"' :: rest, acc => parseStringBody rest ('"' :: acc)
  | '\\' :: '\\' :: rest, acc => parseStringBody rest ('\\' :: acc)
  | '\\' :: '/' :: rest, acc => parseStringBody rest ('/' :: acc)
  | '\\' :: 'b' :: rest, acc => parseStringBody rest (Char.ofNat 8 :: acc)
  | '\\' :: 'f' :: rest, acc => parseStringBody rest (Char.ofNat 12 :: acc)
  | '\\' :: 'n' :: rest, acc => parseStringBody rest ('\n' :: acc)
  | '\\' :: 'r' :: rest, acc => parseStringBody rest ('\r' :: acc)
  | '\\' :: 't' :: rest, acc => parseStringBody rest ('\t' :: acc)
  | '\\' :: 'u' :: h1 :: h2 :: h3 :: h4 :: rest, acc =>
    (match hexDigitVal h1, hexDigitVal h2, hexDigitVal h3, hexDigitVal h4 with
    | some a, some b, some c, some d =>
      let code := ((a * 16 + b) * 16 + c) * 16 + d
      if code < 55296 ∨ 57344 ≤ code then
        parseStringBody rest (Char.ofNat code :: acc)
      else none
    | _, _, _, _ => none)
  | '\\' :: _, _ => none
  | c :: rest, acc =>
    if c.toNat < 32 then none else parseStringBody rest (c :: acc)

/-- Longest run of decimal digits at the head of the input. -/
def takeDigits : List Char → List Char × List Char
  | [] => ([], [])
  | c :: rest =>
    if c.isDigit then
      let (ds, r) := takeDigits rest
      (c :: ds, r)
    else ([], c :: rest)

/-- Optional fraction part of a JSON number. -/
def parseFrac : List Char → Option (List Char × List Char)
  | '.' :: r =>
    let (ds, r2) := takeDigits r
    if ds.isEmpty then none else some ('.' :: ds, r2)
  | cs => some ([], cs)

/-- Optional exponent part of a JSON number. -/
def parseExp : List Char → Option (List Char × List Char)
  | [] => some ([], [])
  | c :: r =>
    if c = 'e' ∨ c = 'E' then
      let (sgn, r1) :=
        match r with
        | '+' :: r2 => (['+'], r2)
        | '-' :: r2 => (['-'], r2)
        | _ => ([], r)
      let (ds, r2) := takeDigits r1
      if ds.isEmpty then none else some (c :: (sgn ++ ds), r2)
    else some ([], c :: r)

/-- Parse a JSON number token, keeping its text. -/
def parseNum (cs : List Char) : Option (Json × List Char) :=
  let (sgn, cs1) :=
    match cs with
    | '-' :: r => (['-'], r)
    | _ => ([], cs)
  let (intDs, cs2) := takeDigits cs1
  if intDs.isEmpty then none
  else
    match parseFrac cs2 with
    | none => none
    | some (fds, cs3) =>
      match parseExp cs3 with
      | none => none
      | some (eds, cs4) =>
        some (.num (String.mk (sgn ++ intDs ++ fds ++ eds)), cs4)

/-- Insert a field into an object under construction; a duplicate key
replaces the earlier binding, as `serde_json` maps do. -/
def objPut : List (String × Json) → String → Json → List (String × Json)
  | [], k, v => [(k, v)]
  | (k0, v0) :: rest, k, v =>
    if k0 = k then (k0, v) :: rest else (k0, v0) :: objPut rest k v

mutual

/-- Parse one JSON value.  `fuel` only bounds the recursion depth; it is
chosen large enough in `parseJson` for any input the parse can accept. -/
def parseVal (fuel : Nat) (cs : List Char) : Option (Json × List Char) :=
  match fuel with
  | 0 => none
  | fuel + 1 =>
    match skipWs cs with
    | [] => none
    | '\x7b' :: rest => parseObjStart fuel rest
    | '[' :: rest => parseArrStart fuel rest
    | '"' :: rest =>
      match parseStringBody rest [] with
      | some (s, r) => some (.str s, r)
      | none => none
    | 't' :: 'r' :: 'u' :: 'e' :: rest => some (.bool true, rest)
    | 'f' :: 'a' :: 'l' :: 's' :: 'e' :: rest => some (.bool false, rest)
    | 'n' :: 'u' :: 'l' :: 'l' :: rest => some (.null, rest)
    | cs1 => parseNum cs1

/-- Parse an object right after its opening brace. -/
def parseObjStart (fuel : Nat) (cs : List Char) : Option (Json × List Char) :=
  match fuel with
  | 0 => none
  | fuel + 1 =>
    match skipWs cs with
    | '\x7d' :: rest => some (.obj [], rest)
    | cs1 => parseObjField fuel cs1 []

/-- Parse one `"key": value` member of an object. -/
def parseObjField (fuel : Nat) (cs : List Char) (fields : List (String × Json)) :
    Option (Json × List Char) :=
  match fuel with
  | 0 => none
  | fuel + 1 =>
    match skipWs cs with
    | '"' :: rest =>
      match parseStringBody rest [] with
      | some (key, r1) =>
        match skipWs r1 with
        | ':' :: r2 =>
          match parseVal fuel r2 with
          | some (v, r3) => parseObjAfter fuel r3 (objPut fields key v)
          | none => none
        | _ => none
      | none => none
    | _ => none

/-- After a member: either the object closes or a comma starts the next
member (trailing commas are rejected, as `serde_json` does). -/
def parseObjAfter (fuel : Nat) (cs : List Char) (fields : List (String × Json)) :
    Option (Json × List Char) :=
  match fuel with
  | 0 => none
  | fuel + 1 =>
    match skipWs cs with
    | '\x7d' :: rest => some (.obj fields, rest)
    | ',' :: rest => parseObjField fuel rest fields
    | _ => none

/-- Parse an array right after its opening bracket.  Elements are
accumulated in reverse. -/
def parseArrStart (fuel : Nat) (cs : List Char) : Option (Json × List Char) :=
  match fuel with
  | 0 => none
  | fuel + 1 =>
    match skipWs cs with
    | ']' :: rest => some (.arr [], rest)
    | cs1 =>
      match parseVal fuel cs1 with
      | some (v, r) => parseArrAfter fuel r [v]
      | none => none

/-- After an element: either the array closes or a comma starts the next
element. -/
def parseArrAfter (fuel : Nat) (cs : List Char) (elems : List Json) :
    Option (Json × List Char) :=
  match fuel with
  | 0 => none
  | fuel + 1 =>
    match skipWs cs with
    | ']' :: rest => some (.arr elems.reverse, rest)
    | ',' :: rest =>
      match parseVal fuel rest with
      | some (v, r) => parseArrAfter fuel r (v :: elems)
      | none => none
    | _ => none

end

/-- `serde_json::from_str` on a whole input: one value, possibly surrounded
by whitespace, with nothing after it. -/
def parseJson (s : String) : Option Json :=
  match parseVal (2 * s.length + 8) s.data with
  | some (v, rest) =>
    match skipWs rest with
    | [] => some v
    | _ => none
  | none => none

/-- Lookup of a field in an object's member list (first match; keys are
unique by construction of the parser). -/
def lookupField : List (String × Json) → String → Option Json
  | [], _ => none
  | (k, v) :: rest, key => if k = key then some v else lookupField rest key

/-- `serde_json::Value::get` with a string key: a field of an object, `None`
on any other kind of value. -/
def Json.getField : Json → String → Option Json
  | .obj fields, key => lookupField fields key
  | _, _ => none

/-- `serde_json::Value::get` with a numeric index: an element of an array,
`None` on any other kind of value. -/
def Json.getIndex : Json → Nat → Option Json
  | .arr elems, i => elems.get? i
  | _, _ => none

/-- `serde_json::Value::as_str`. -/
def Json.asStr : Json → Option String
  | .str s => some s
  | _ => none

/-- Rust `str::starts_with`.  Rust compares bytes; over the ASCII framing
text involved this is character-for-character comparison. -/
def strStartsWith (s pat : String) : Bool :=
  pat.data.isPrefixOf s.data

/-- Rust byte slicing `&s[n..]` after a `starts_with` check on an ASCII
pattern of length `n`: drop the first `n` characters. -/
def strDrop (s : String) (n : Nat) : String :=
  String.mk (s.data.drop n)

/-- Rust `str::trim` (over the whitespace characters the protocol uses). -/
def strTrim (s : String) : String :=
  String.mk
    (((s.data.dropWhile Char.isWhitespace).reverse.dropWhile
      Char.isWhitespace).reverse)

/-- The embedded-error check of `handle_streaming_response`
(`src/src/core/stream.rs` lines 61-73): parse the payload as a `Value` and
extract `error.message` when it is a string.  The typed
`serde_json::from_str::<ErrorResponse>` check of
`OpenAIClient::process_stream_chunk` (`src/src/api/openai.rs` lines 193-195)
extracts exactly the same thing: a top-level object with an `error` object
member carrying a string `message` member, other fields ignored. -/
def errorMessageOf (jsonStr : String) : Option String :=
  match parseJson jsonStr with
  | none => none
  | some value =>
    match value.getField "error" with
    | none => none
    | some err =>
      match err.getField "message" with
      | none => none
      | some message => message.asStr

/-- The delta extraction of `handle_streaming_response`
(`src/src/core/stream.rs` lines 76-91): `choices[0].delta.content` when it is
a string, through `serde_json::Value` navigation. -/
def deltaContentOf (jsonStr : String) : Option String :=
  match parseJson jsonStr with
  | none => none
  | some value =>
    match value.getField "choices" with
    | none => none
    | some choices =>
      match choices.getIndex 0 with
      | none => none
      | some first =>
        match first.getField "delta" with
        | none => none
        | some delta =>
          match delta.getField "content" with
          | none => none
          | some content => content.asStr

/-- Typed deserialization of `DeltaContent` (`src/src/api/openai.rs` lines
60-66): an object whose optional `role` and `content` members must each be a
string or `null` when present; unknown fields are ignored.  Returns the
`content` member.  `none` means the value does not deserialize. -/
def deltaFieldOf (v : Json) : Option (Option String) :=
  match v with
  | .obj _ =>
    let roleOk : Option (Option String) :=
      match v.getField "role" with
      | none => some none
      | some .null => some none
      | some (.str s) => some (some s)
      | some _ => none
    let contentOk : Option (Option String) :=
      match v.getField "content" with
      | none => some none
      | some .null => some none
      | some (.str s) => some (some s)
      | some _ => none
    match roleOk, contentOk with
    | some _, some c => some c
    | _, _ => none
  | _ => none

/-- Typed deserialization of `StreamChoice` (`src/src/api/openai.rs` lines
55-58): an object with a required `delta` member deserializing as
`DeltaContent`.  Returns the delta's `content`. -/
def choiceDeltaOf (v : Json) : Option (Option String) :=
  match v with
  | .obj _ =>
    match v.getField "delta" with
    | some d => deltaFieldOf d
    | none => none
  | _ => none

/-- The delta extraction of `OpenAIClient::process_stream_chunk`
(`src/src/api/openai.rs` lines 198-204): typed
`serde_json::from_str::<ChatStreamResponse>` — a top-level object with a
`choices` array whose every element deserializes as a `StreamChoice` — then
`choices.first()` and its `delta.content`.  Collapses deserialization
failure and an absent first content into `none`, since the caller pushes
text in exactly the `some` case. -/
def chatStreamContentOf (jsonStr : String) : Option String :=
  match parseJson jsonStr with
  | none => none
  | some value =>
    match value with
    | .obj _ =>
      match value.getField "choices" with
      | some (.arr elems) =>
        match elems.mapM choiceDeltaOf with
        | none => none
        | some deltas =>
          match deltas.head? with
          | some c => c
          | none => none
      | _ => none
    | _ => none

/-- The `while let Some(chunk) = stream.next()` loop of
`handle_streaming_response` (`src/src/core/stream.rs` lines 51-102), with the
progress-bar calls (purely presentational) dropped.  `response` is the
accumulator; a transport-level `Err` chunk returns `CoreError::Api`, an
embedded error payload returns `CoreError::Other` with the embedded message,
and a chunk that does not start with `"data: "` or whose payload matches
nothing is skipped. -/
def handle_stream_go : List (Except ApiError String) → String → CoreResult String
  | [], response => .ok response
  | chunk :: rest, response =>
    match chunk with
    | .error e => .error (.Api e)
    | .ok data =>
      if strStartsWith data "data: " then
        let jsonStr := strDrop data 6
        if strTrim jsonStr = "[DONE]" then handle_stream_go rest response
        else
          match errorMessageOf jsonStr with
          | some errorMsg => .error (.Other errorMsg)
          | none =>
            match deltaContentOf jsonStr with
            | some token => handle_stream_go rest (response ++ token)
            | none => handle_stream_go rest response
      else handle_stream_go rest response

/-- `handle_streaming_response` (`src/src/core/stream.rs` lines 10-111):
`send_streaming_query`'s result is either an error (mapped to
`CoreError::Api`) or the finite list of chunks the stream delivers, which is
folded by the loop starting from the empty accumulator. -/
def handle_streaming_response
    (streamResult : Except ApiError (List (Except ApiError String))) :
    CoreResult String :=
  match streamResult with
  | .error e => .error (.Api e)
  | .ok chunks => handle_stream_go chunks ""

/-- Split a character list at every `\n` (first half of Rust `str::lines`). -/
def splitOnNewline : List Char → List (List Char)
  | [] => [[]]
  | c :: rest =>
    let r := splitOnNewline rest
    if c = '\n' then [] :: r
    else
      match r with
      | h :: t => (c :: h) :: t
      | [] => [[c]]

/-- Rust `str::lines` (continued): assemble the segments of `splitOnNewline`,
dropping the final empty segment and stripping one `\r` from the end of every
segment that was followed by a `\n`. -/
def rustLines (s : String) : List String :=
  let parts := splitOnNewline s.data
  let lastPart := (parts.getLast?.getD [])
  let initStripped := parts.dropLast.map
    (fun l =>
      match l.getLast? with
      | some '\r' => String.mk l.dropLast
      | _ => String.mk l)
  if lastPart.isEmpty then initStripped else initStripped ++ [String.mk lastPart]

/-- The `for line in text.lines()` loop of `OpenAIClient::process_stream_chunk`
(`src/src/api/openai.rs` lines 182-205): every `"data: "` line of the chunk
is processed; `[DONE]` is skipped; an embedded error payload returns
`ApiError::Other` with the embedded message at once; a valid frame's first
choice's `delta.content` is appended to `content`; anything else is
skipped. -/
def process_lines : List String → String → Except ApiError String
  | [], content => .ok content
  | line :: rest, content =>
    if strStartsWith line "data: " then
      let data := strDrop line 6
      if strTrim data = "[DONE]" then process_lines rest content
      else
        match errorMessageOf data with
        | some msg => .error (.Other msg)
        | none =>
          match chatStreamContentOf data with
          | some token => process_lines rest (content ++ token)
          | none => process_lines rest content
    else process_lines rest content

/-- `OpenAIClient::process_stream_chunk` (`src/src/api/openai.rs` lines
178-212): fold the chunk's lines from an empty accumulator; an empty final
accumulation is reported as `Ok(None)`.  The chunk is assumed to be valid
UTF-8 (`String::from_utf8_lossy` is the identity there). -/
def process_stream_chunk (chunk : String) : Except ApiError (Option String) :=
  match process_lines (rustLines chunk) "" with
  | .error e => .error e
  | .ok content => .ok (if content = "" then none else some content)

/-- `QueryEngine::query` (`src/src/core/mod.rs` lines 81-179), with the
progress-display side effects (purely presentational) dropped.  `op` is the
retryable operation the engine builds at lines 135-146: each invocation
performs either `send_query` or `handle_streaming_response` on a fresh
stream; its per-invocation results are a parameter here.  `now` is the
wall-clock second of the call.  Returns the result, the cache state after
the call, and the number of invocations of the operation (each of which
makes exactly one backend call). -/
def QueryEngine.query (cache : TimedCache) (now : Nat) (prompt : String)
    (max_retries : Nat) (op : Nat → CoreResult String) (bo : Nat → Option Nat) :
    CoreResult String × TimedCache × Nat :=
  match cache_get cache now prompt with
  | (some cachedResponse, c1) => (.ok cachedResponse, c1, 0)
  | (none, c1) =>
    match with_backoff op max_retries bo with
    | (.ok response, n) => (.ok response, cache_set c1 now prompt response, n)
    | (.error e, n) => (.error e, c1, n)

/-- Whether a character list contains another as a contiguous run. -/
def listContainsRun : List Char → List Char → Bool
  | [], pat => pat.isEmpty
  | c :: rest, pat =>
    if pat.isPrefixOf (c :: rest) then true else listContainsRun rest pat

/-- Whether `s` contains `pat` as a substring. -/
def containsSubstr (s pat : String) : Bool :=
  listContainsRun s.data pat.data

/-- Whether a `CoreError` is the `Stream` variant. -/
def isStreamVariant : CoreError → Bool
  | .Stream _ => true
  | _ => false

/-- Whether a result is an error. -/
def resultIsError {T : Type} : CoreResult T → Bool
  | .error _ => true
  | .ok _ => false

/-- The chunk sequence of the spec's stream-mid-error scenario: a delta
frame carrying `"Token1 "` followed by an embedded error payload with
message `"Simulated error"`. -/
def simulatedErrorChunks : List (Except ApiError String) :=
  [.ok "data: \x7b\"choices\":[\x7b\"delta\":\x7b\"content\":\"Token1 \"\x7d\x7d]\x7d\n\n",
   .ok "data: \x7b\"error\":\x7b\"message\":\"Simulated error\"\x7d\x7d\n\n"]

theorem with_backoff_go_ok {T : Type} {op : Nat → CoreResult T}
    {max_retries : Nat} {bo : Nat → Option Nat} {attempt : Nat} {v : T}
    (h : op attempt = .ok v) :
    with_backoff_go op max_retries bo attempt = (.ok v, attempt + 1) := by
  unfold with_backoff_go
  rw [h]

theorem with_backoff_go_err_stop {T : Type} {op : Nat → CoreResult T}
    {max_retries : Nat} {bo : Nat → Option Nat} {attempt : Nat} {e : CoreError}
    (h : op attempt = .error e) (hstop : attempt + 1 ≥ max_retries) :
    with_backoff_go op max_retries bo attempt =
      (.error (.Retry ("Operation failed after " ++ toString (attempt + 1)
        ++ " attempts: " ++ e.display)), attempt + 1) := by
  unfold with_backoff_go
  rw [h]
  simp [hstop]

theorem with_backoff_go_err_cont {T : Type} {op : Nat → CoreResult T}
    {max_retries : Nat} {bo : Nat → Option Nat} {attempt : Nat} {e : CoreError}
    {d : Nat} (h : op attempt = .error e) (hlt : attempt + 1 < max_retries)
    (hbo : bo attempt = some d) :
    with_backoff_go op max_retries bo attempt =
      with_backoff_go op max_retries bo (attempt + 1) := by
  conv_lhs => unfold with_backoff_go
  rw [h]
  simp [Nat.not_le_of_lt hlt, hbo]

theorem with_backoff_go_err_timeout {T : Type} {op : Nat → CoreResult T}
    {max_retries : Nat} {bo : Nat → Option Nat} {attempt : Nat} {e : CoreError}
    (h : op attempt = .error e) (hlt : attempt + 1 < max_retries)
    (hbo : bo attempt = none) :
    with_backoff_go op max_retries bo attempt =
      (.error (.Retry "Retry timeout exceeded"), attempt + 1) := by
  unfold with_backoff_go
  rw [h]
  simp [Nat.not_le_of_lt hlt, hbo]

theorem with_backoff_go_err_of_all_err {T : Type} {op : Nat → CoreResult T}
    {max_retries : Nat} {bo : Nat → Option Nat}
    (h : ∀ i, ∃ e, op i = .error e) :
    ∀ d attempt, max_retries - attempt ≤ d →
      ∃ e n, with_backoff_go op max_retries bo attempt = (.error e, n) := by
  intro d
  induction d with
  | zero =>
    intro attempt hle
    obtain ⟨e, he⟩ := h attempt
    exact ⟨_, _, with_backoff_go_err_stop he (by omega)⟩
  | succ d ih =>
    intro attempt hle
    obtain ⟨e, he⟩ := h attempt
    by_cases hstop : attempt + 1 ≥ max_retries
    · exact ⟨_, _, with_backoff_go_err_stop he hstop⟩
    · have hlt : attempt + 1 < max_retries := by omega
      cases hbo : bo attempt with
      | none => exact ⟨_, _, with_backoff_go_err_timeout he hlt hbo⟩
      | some dd =>
        rw [with_backoff_go_err_cont he hlt hbo]
        exact ih (attempt + 1) (by omega)

theorem with_backoff_err_of_all_err {T : Type} {op : Nat → CoreResult T}
    {max_retries : Nat} {bo : Nat → Option Nat}
    (h : ∀ i, ∃ e, op i = .error e) :
    ∃ e n, with_backoff op max_retries bo = (.error e, n) :=
  with_backoff_go_err_of_all_err h max_retries 0 (by omega)

theorem query_hit {cache : TimedCache} {now : Nat} {prompt : String}
    {t : Nat} {r : String} {max_retries : Nat} {op : Nat → CoreResult String}
    {bo : Nat → Option Nat}
    (h : assocGet cache.store prompt = some (t, r))
    (hfresh : now - t < cache.seconds) :
    QueryEngine.query cache now prompt max_retries op bo = (.ok r, cache, 0) := by
  unfold QueryEngine.query cache_get
  rw [h]
  simp [hfresh]

theorem query_miss {cache : TimedCache} {now : Nat} {prompt : String}
    {max_retries : Nat} {op : Nat → CoreResult String} {bo : Nat → Option Nat}
    (h : assocGet cache.store prompt = none) :
    QueryEngine.query cache now prompt max_retries op bo =
      (match with_backoff op max_retries bo with
       | (.ok response, n) => (.ok response, cache_set cache now prompt response, n)
       | (.error e, n) => (.error e, cache, n)) := by
  unfold QueryEngine.query cache_get
  rw [h]

theorem cache_get_some_iff (c : TimedCache) (now : Nat) (k v : String) :
    (cache_get c now k).1 = some v ↔
      ∃ t, assocGet c.store k = some (t, v) ∧ now - t < c.seconds := by
  unfold cache_get
  cases h : assocGet c.store k with
  | none => simp
  | some tv =>
    obtain ⟨t, v0⟩ := tv
    by_cases hf : now - t < c.seconds
    · simp only [hf, if_true]
      constructor
      · intro hv
        have hv0 : v0 = v := by simpa using hv
        exact ⟨t, by rw [hv0], hf⟩
      · intro ⟨t1, ht1, hlt1⟩
        simp only [h, Option.some.injEq, Prod.mk.injEq] at ht1
        simp [ht1.2]
    · simp only [hf, if_false]
      constructor
      · intro hv
        simp at hv
      · intro ⟨t1, ht1, hlt1⟩
        simp only [Option.some.injEq, Prod.mk.injEq] at ht1
        omega

/-- C1: the claim states that an operation failing on its first attempt with
a non-retryable error (`InvalidKey` or generic `Other`) is returned
immediately by `with_backoff` — one invocation, no backoff sleep, regardless
of `max_retries`.  The code never consults `should_retry` (nor
`ApiError::is_retryable`): at the failing input — an operation always
failing with `ApiError::InvalidKey`, `max_retries = 3` — it invokes the
operation 3 times, sleeping between attempts, and returns the
`Retry`-wrapped error, even though `should_retry` classifies the error as
non-retryable. -/
theorem c1_code_behavior :
    with_backoff (fun _ => (.error (.Api .InvalidKey) : CoreResult String)) 3
        (fun _ => some 1) =
      (.error (.Retry
        "Operation failed after 3 attempts: API error: Invalid API key"), 3)
    ∧ should_retry (.Api .InvalidKey) = false := by
  constructor
  · unfold with_backoff
    have s1 := @with_backoff_go_err_cont String
      (fun _ => .error (.Api .InvalidKey)) 3 (fun _ => some 1) 0
      (.Api .InvalidKey) 1 rfl (by omega) rfl
    have s2 := @with_backoff_go_err_cont String
      (fun _ => .error (.Api .InvalidKey)) 3 (fun _ => some 1) 1
      (.Api .InvalidKey) 1 rfl (by omega) rfl
    have s3 := @with_backoff_go_err_stop String
      (fun _ => .error (.Api .InvalidKey)) 3 (fun _ => some 1) 2
      (.Api .InvalidKey) rfl (by omega)
    rw [s1, s2, s3]
    decide
  · decide

/-- C2: the claim states the cache never exceeds its configured capacity and
that inserting N+1 distinct keys into a cache of capacity N evicts the
oldest key.  `cached::TimedCache` has no capacity bound (the constructor's
`size` is an allocation hint), so after inserting 3 distinct keys into a
cache created with capacity 2 all 3 entries are stored and the oldest is
still retrievable — contradicting the claim and the repository's own
`test_cache_capacity`. -/
theorem c2_code_behavior :
    (let c := cache_set (cache_set (cache_set (QueryCache.new 2 60)
      0 "query1" "response1") 0 "query2" "response2") 0 "query3" "response3"
     cache_size c = 3
     ∧ (cache_get c 0 "query1").1 = some "response1"
     ∧ (cache_get c 0 "query2").1 = some "response2"
     ∧ (cache_get c 0 "query3").1 = some "response3") := by
  decide

/-- C3: invocation counting of the retry controller.  (1) An operation
failing twice with a retryable error then succeeding, with `max_retries ≥ 3`
and the backoff yielding a delay at both consulted points, returns the
success value after exactly 3 invocations.  (2) An operation that always
fails with a retryable error, with `max_retries = 2`, returns an error after
exactly 2 invocations.  (3) `max_retries = 0` yields a single invocation,
with no retry and no backoff consultation, whatever the operation does. -/
theorem c3_retry_invocation_counts :
    (∀ (e0 e1 : CoreError) (v : String) (max_retries : Nat)
       (bo : Nat → Option Nat) (d0 d1 : Nat),
      should_retry e0 = true → should_retry e1 = true → 3 ≤ max_retries →
      bo 0 = some d0 → bo 1 = some d1 →
      with_backoff
        (fun i => if i = 0 then .error e0 else if i = 1 then .error e1 else .ok v)
        max_retries bo = (.ok v, 3))
    ∧ (∀ (e : CoreError) (bo : Nat → Option Nat) (d0 : Nat),
      should_retry e = true → bo 0 = some d0 →
      with_backoff (fun _ => (.error e : CoreResult String)) 2 bo =
        (.error (.Retry ("Operation failed after 2 attempts: " ++ e.display)), 2))
    ∧ (∀ (op : Nat → CoreResult String) (bo : Nat → Option Nat),
      (with_backoff op 0 bo).2 = 1) := by
  refine ⟨?_, ?_, ?_⟩
  · intro e0 e1 v max_retries bo d0 d1 _ _ hmr hbo0 hbo1
    unfold with_backoff
    have s1 := @with_backoff_go_err_cont String
      (fun i => if i = 0 then .error e0 else if i = 1 then .error e1 else .ok v)
      max_retries bo 0 e0 d0 rfl (by omega) hbo0
    have s2 := @with_backoff_go_err_cont String
      (fun i => if i = 0 then .error e0 else if i = 1 then .error e1 else .ok v)
      max_retries bo 1 e1 d1 rfl (by omega) hbo1
    have s3 := @with_backoff_go_ok String
      (fun i => if i = 0 then .error e0 else if i = 1 then .error e1 else .ok v)
      max_retries bo 2 v rfl
    rw [s1, s2, s3]
  · intro e bo d0 _ hbo0
    unfold with_backoff
    have s1 := @with_backoff_go_err_cont String
      (fun _ => .error e) 2 bo 0 e d0 rfl (by omega) hbo0
    have s2 := @with_backoff_go_err_stop String
      (fun _ => .error e) 2 bo 1 e rfl (by omega)
    rw [s1, s2]
    have h2 : toString (1 + 1 : Nat) = "2" := by decide
    rw [h2]
    have h3 : ("Operation failed after " ++ "2" ++ " attempts: ") =
        "Operation failed after 2 attempts: " := by decide
    rw [h3]
  · intro op bo
    unfold with_backoff
    cases h : op 0 with
    | ok v => rw [with_backoff_go_ok h]
    | error e => rw [with_backoff_go_err_stop h (by omega)]

theorem c3_retry_invocation_counts_witness :
    (should_retry (.Api .RateLimit) = true
      ∧ should_retry (.Api (.Network "connection reset")) = true
      ∧ with_backoff
          (fun i => if i = 0 then .error (.Api .RateLimit)
            else if i = 1 then .error (.Api (.Network "connection reset"))
            else .ok "success") 3 (fun _ => some 1) = (.ok "success", 3))
    ∧ with_backoff (fun _ => (.error (.Api .RateLimit) : CoreResult String)) 2
        (fun _ => some 1) =
        (.error (.Retry ("Operation failed after 2 attempts: "
          ++ (CoreError.Api .RateLimit).display)), 2)
    ∧ (with_backoff (fun _ => (.ok "x" : CoreResult String)) 0 (fun _ => some 1)).2 = 1 :=
  ⟨⟨by decide, by decide,
    c3_retry_invocation_counts.1 _ _ _ 3 _ 1 1 (by decide) (by decide)
      (by omega) rfl rfl⟩,
   c3_retry_invocation_counts.2.1 _ _ 1 (by decide) rfl,
   c3_retry_invocation_counts.2.2 _ _⟩

/-- C4: a query whose prompt has an unexpired cache entry returns that
cached response, performs zero invocations of the backend operation (hence
neither `send_query` nor `send_streaming_query` runs, and no retry occurs),
and leaves the cache unchanged. -/
theorem c4_cache_hit_short_circuit :
    ∀ (cache : TimedCache) (now : Nat) (prompt : String) (t : Nat) (r : String)
      (max_retries : Nat) (op : Nat → CoreResult String) (bo : Nat → Option Nat),
      assocGet cache.store prompt = some (t, r) →
      now - t < cache.seconds →
      QueryEngine.query cache now prompt max_retries op bo = (.ok r, cache, 0) :=
  fun _ _ _ _ _ _ _ _ h hfresh => query_hit h hfresh

theorem c4_cache_hit_short_circuit_witness :
    assocGet (TimedCache.mk [("p", 5, "resp")] 60).store "p" = some (5, "resp")
    ∧ 10 - 5 < (TimedCache.mk [("p", 5, "resp")] 60).seconds
    ∧ QueryEngine.query (TimedCache.mk [("p", 5, "resp")] 60) 10 "p" 3
        (fun _ => .error (.Other "backend fails on any further call"))
        (fun _ => some 1) =
      (.ok "resp", TimedCache.mk [("p", 5, "resp")] 60, 0) :=
  ⟨by decide, by decide,
   c4_cache_hit_short_circuit _ 10 "p" 5 "resp" 3 _ _ (by decide) (by decide)⟩

/-- C10: `should_retry` returns `true` exactly on API `Network` errors, the
API `RateLimit` error, and `Stream` errors; it returns `false` on every
other error, `InvalidKey`, API `Other`, `Cache`, `Retry` and core `Other`
included. -/
theorem c10_should_retry_classification :
    ∀ e : CoreError, should_retry e = true ↔
      ((∃ s, e = .Api (.Network s)) ∨ e = .Api .RateLimit ∨ ∃ s, e = .Stream s) := by
  intro e
  cases e with
  | Api a => cases a <;> simp [should_retry]
  | Cache s => simp [should_retry]
  | Retry s => simp [should_retry]
  | Stream s => simp [should_retry]
  | Other s => simp [should_retry]

/-- C5: a streaming query hitting a transport-level error or an embedded
error payload mid-stream makes the engine's `query` return an error and
leaves the cache unchanged for that prompt — no partial accumulation is
cached or returned as success.  Part 1 is general: whenever the streaming
operation's chunks make `handle_streaming_response` fail, `query` on a
cache miss returns an error and the cache is returned exactly as it was.
Part 2 is the spec's concrete scenario (`["Token1 ", <error>]` on an empty
cache): the returned error's message contains the embedded error text
`"Simulated error"`, checked by part 3. -/
theorem c5_stream_error_not_cached :
    (∀ (cache : TimedCache) (now : Nat) (prompt : String) (max_retries : Nat)
       (bo : Nat → Option Nat) (chunks : List (Except ApiError String))
       (e : CoreError),
      assocGet cache.store prompt = none →
      handle_streaming_response (.ok chunks) = .error e →
      ∃ e2 n, QueryEngine.query cache now prompt max_retries
        (fun _ => handle_streaming_response (.ok chunks)) bo =
          (.error e2, cache, n))
    ∧ QueryEngine.query (QueryCache.new 1000 3600) 0 "X" 3
        (fun _ => handle_streaming_response (.ok simulatedErrorChunks))
        (fun _ => some 1) =
      (.error (.Retry
        "Operation failed after 3 attempts: Other error: Simulated error"),
       QueryCache.new 1000 3600, 3)
    ∧ containsSubstr
        "Operation failed after 3 attempts: Other error: Simulated error"
        "Simulated error" = true := by
  refine ⟨?_, ?_, ?_⟩
  · intro cache now prompt max_retries bo chunks e hmiss herr
    have hall : ∀ i : Nat, ∃ er,
        (fun _ => handle_streaming_response (.ok chunks)) i = .error er :=
      fun _ => ⟨e, herr⟩
    obtain ⟨e2, n, hwb⟩ := @with_backoff_err_of_all_err String
      (fun _ => handle_streaming_response (.ok chunks)) max_retries bo hall
    exact ⟨e2, n, by rw [query_miss hmiss, hwb]⟩
  · have herr : handle_streaming_response (.ok simulatedErrorChunks) =
        .error (.Other "Simulated error") := by decide
    have s1 := @with_backoff_go_err_cont String
      (fun _ => handle_streaming_response (.ok simulatedErrorChunks)) 3
      (fun _ => some 1) 0 (.Other "Simulated error") 1 herr (by omega) rfl
    have s2 := @with_backoff_go_err_cont String
      (fun _ => handle_streaming_response (.ok simulatedErrorChunks)) 3
      (fun _ => some 1) 1 (.Other "Simulated error") 1 herr (by omega) rfl
    have s3 := @with_backoff_go_err_stop String
      (fun _ => handle_streaming_response (.ok simulatedErrorChunks)) 3
      (fun _ => some 1) 2 (.Other "Simulated error") herr (by omega)
    rw [query_miss (by decide)]
    unfold with_backoff
    rw [s1, s2, s3]
    decide
  · decide

theorem c5_stream_error_not_cached_witness :
    assocGet (QueryCache.new 5 60).store "p" = none
    ∧ handle_streaming_response
        (.ok [(.error (.Network "connection reset") : Except ApiError String)]) =
      .error (.Api (.Network "connection reset"))
    ∧ ∃ e2 n, QueryEngine.query (QueryCache.new 5 60) 0 "p" 2
        (fun _ => handle_streaming_response
          (.ok [(.error (.Network "connection reset") : Except ApiError String)]))
        (fun _ => some 1) = (.error e2, QueryCache.new 5 60, n) :=
  ⟨by decide, by decide,
   c5_stream_error_not_cached.1 (QueryCache.new 5 60) 0 "p" 2 (fun _ => some 1)
     [(.error (.Network "connection reset") : Except ApiError String)]
     (.Api (.Network "connection reset")) (by decide) (by decide)⟩

/-- C6: the streaming handler concatenates the text increments of the
arriving frames in order with no added separators: for the frames carrying
the deltas `"Hello"`, `", "`, `"world"`, `"!"` followed by the `[DONE]`
sentinel it returns exactly `"Hello, world!"`. -/
theorem c6_stream_accumulation :
    handle_streaming_response (.ok
      [.ok "data: \x7b\"choices\":[\x7b\"delta\":\x7b\"content\":\"Hello\"\x7d\x7d]\x7d\n\n",
       .ok "data: \x7b\"choices\":[\x7b\"delta\":\x7b\"content\":\", \"\x7d\x7d]\x7d\n\n",
       .ok "data: \x7b\"choices\":[\x7b\"delta\":\x7b\"content\":\"world\"\x7d\x7d]\x7d\n\n",
       .ok "data: \x7b\"choices\":[\x7b\"delta\":\x7b\"content\":\"!\"\x7d\x7d]\x7d\n\n",
       .ok "data: [DONE]\n\n"]) = .ok "Hello, world!" := by
  decide

/-- C7 counterexample: the claim states `get` returns the stored response
iff an entry is present and its age does not exceed (i.e. is at most) the
TTL.  At age exactly equal to the TTL the entry is present and its age does
not exceed the TTL, yet `cache_get` reports a miss: the code's freshness
test is strict (`elapsed < seconds`). -/
theorem c7_ttl_boundary_counterexample :
    (let c := cache_set (QueryCache.new 10 60) 0 "k" "v"
     assocGet c.store "k" = some (0, "v")
     ∧ 60 - 0 ≤ 60
     ∧ (cache_get c 60 "k").1 = none) := by
  decide

/-- C7 (amended): `get` returns the stored response iff an entry is present
and its age is strictly less than the TTL; once the age reaches or exceeds
the TTL, `get` returns `none`, even if an earlier `get` before expiry
returned the value (a read does not refresh the insertion time). -/
theorem c7_ttl_amended :
    (∀ (c : TimedCache) (now : Nat) (k v : String),
      (cache_get c now k).1 = some v ↔
        ∃ t, assocGet c.store k = some (t, v) ∧ now - t < c.seconds)
    ∧ (∀ (c : TimedCache) (now1 now2 : Nat) (k v : String) (t : Nat),
      assocGet c.store k = some (t, v) →
      now1 - t < c.seconds →
      c.seconds ≤ now2 - t →
      (cache_get c now1 k).1 = some v ∧
        (cache_get (cache_get c now1 k).2 now2 k).1 = none) := by
  constructor
  · exact cache_get_some_iff
  · intro c now1 now2 k v t h hfresh hexp
    have h1 : cache_get c now1 k = (some v, c) := by
      unfold cache_get
      rw [h]
      simp [hfresh]
    refine ⟨by rw [h1], ?_⟩
    rw [h1]
    unfold cache_get
    rw [h]
    have hnot : ¬ (now2 - t < c.seconds) := by omega
    simp [hnot]

theorem c7_ttl_amended_witness :
    assocGet (TimedCache.mk [("k", 0, "v")] 60).store "k" = some (0, "v")
    ∧ 30 - 0 < (TimedCache.mk [("k", 0, "v")] 60).seconds
    ∧ (TimedCache.mk [("k", 0, "v")] 60).seconds ≤ 60 - 0
    ∧ ((cache_get (TimedCache.mk [("k", 0, "v")] 60) 30 "k").1 = some "v"
      ∧ (cache_get (cache_get (TimedCache.mk [("k", 0, "v")] 60) 30 "k").2
          60 "k").1 = none) :=
  ⟨by decide, by decide, by decide,
   c7_ttl_amended.2 (TimedCache.mk [("k", 0, "v")] 60) 30 60 "k" "v" 0
     (by decide) (by decide) (by decide)⟩

/-- C8 counterexample: the claim states the chunk assembler surfaces an
embedded error payload as a terminal StreamError.  At the concrete chunk
`data: {"error":{"message":"boom"}}` the assembler returns
`ApiError::Other("boom")`, which the stream consumer lifts to
`CoreError::Api` — not the `Stream` variant the claim names. -/
theorem c8_error_kind_counterexample :
    process_stream_chunk "data: \x7b\"error\":\x7b\"message\":\"boom\"\x7d\x7d\n\n" =
      .error (.Other "boom")
    ∧ isStreamVariant (.Api (.Other "boom")) = false := by
  decide

/-- C8 (amended): for every physical chunk, `process_stream_chunk` splits
the chunk on line boundaries and processes every `"data: "` frame it
contains (not just the first), ignores the `[DONE]` sentinel, surfaces an
embedded error payload as a terminal error — an API-kind `Other` error
carrying the embedded message, not a `Stream`-kind error — aborting the
rest of the chunk, and extracts only the incremental text payload of each
valid frame while discarding frames that carry no text delta (such as a
role-only frame). -/
theorem c8_chunk_assembler_amended :
    (∀ (rest : List String) (content : String),
      process_lines ("data: [DONE]" :: rest) content = process_lines rest content)
    ∧ (∀ (line : String) (rest : List String) (content msg : String),
      strStartsWith line "data: " = true →
      strTrim (strDrop line 6) ≠ "[DONE]" →
      errorMessageOf (strDrop line 6) = some msg →
      process_lines (line :: rest) content = .error (.Other msg))
    ∧ (∀ (line : String) (rest : List String) (content tok : String),
      strStartsWith line "data: " = true →
      strTrim (strDrop line 6) ≠ "[DONE]" →
      errorMessageOf (strDrop line 6) = none →
      chatStreamContentOf (strDrop line 6) = some tok →
      process_lines (line :: rest) content = process_lines rest (content ++ tok))
    ∧ process_stream_chunk
        "data: \x7b\"choices\":[\x7b\"delta\":\x7b\"content\":\"Hello\"\x7d\x7d]\x7d\n\ndata: \x7b\"choices\":[\x7b\"delta\":\x7b\"content\":\" World\"\x7d\x7d]\x7d\n\n"
        = .ok (some "Hello World")
    ∧ process_stream_chunk
        "data: \x7b\"choices\":[\x7b\"delta\":\x7b\"role\":\"assistant\"\x7d\x7d]\x7d\n\n"
        = .ok none
    ∧ process_stream_chunk
        "data: \x7b\"error\":\x7b\"message\":\"boom\"\x7d\x7d\n\ndata: \x7b\"choices\":[\x7b\"delta\":\x7b\"content\":\"IGNORED\"\x7d\x7d]\x7d\n\n"
        = .error (.Other "boom") := by
  refine ⟨?_, ?_, ?_, by decide, by decide, by decide⟩
  · intro rest content
    have h1 : strStartsWith "data: [DONE]" "data: " = true := by decide
    have h2 : strTrim (strDrop "data: [DONE]" 6) = "[DONE]" := by decide
    simp [process_lines, h1, h2]
  · intro line rest content msg h1 h2 h3
    simp [process_lines, h1, h2, h3]
  · intro line rest content tok h1 h2 h3 h4
    simp [process_lines, h1, h2, h3, h4]

theorem c8_chunk_assembler_amended_witness :
    strStartsWith "data: \x7b\"error\":\x7b\"message\":\"w\"\x7d\x7d" "data: " = true
    ∧ strTrim (strDrop "data: \x7b\"error\":\x7b\"message\":\"w\"\x7d\x7d" 6) ≠ "[DONE]"
    ∧ errorMessageOf (strDrop "data: \x7b\"error\":\x7b\"message\":\"w\"\x7d\x7d" 6) = some "w"
    ∧ process_lines ["data: \x7b\"error\":\x7b\"message\":\"w\"\x7d\x7d"] "acc" =
        .error (.Other "w")
    ∧ strStartsWith "data: \x7b\"choices\":[\x7b\"delta\":\x7b\"content\":\"T\"\x7d\x7d]\x7d" "data: " = true
    ∧ errorMessageOf (strDrop "data: \x7b\"choices\":[\x7b\"delta\":\x7b\"content\":\"T\"\x7d\x7d]\x7d" 6) = none
    ∧ chatStreamContentOf (strDrop "data: \x7b\"choices\":[\x7b\"delta\":\x7b\"content\":\"T\"\x7d\x7d]\x7d" 6) = some "T"
    ∧ process_lines ["data: \x7b\"choices\":[\x7b\"delta\":\x7b\"content\":\"T\"\x7d\x7d]\x7d"] "acc" =
        process_lines [] ("acc" ++ "T") :=
  ⟨by decide, by decide, by decide,
   c8_chunk_assembler_amended.2.1 "data: \x7b\"error\":\x7b\"message\":\"w\"\x7d\x7d"
     [] "acc" "w" (by decide) (by decide) (by decide),
   by decide, by decide, by decide,
   c8_chunk_assembler_amended.2.2.1
     "data: \x7b\"choices\":[\x7b\"delta\":\x7b\"content\":\"T\"\x7d\x7d]\x7d"
     [] "acc" "T" (by decide) (by decide) (by decide) (by decide)⟩

/-- C9: a `"data: "`-prefixed frame whose payload is neither the `[DONE]`
sentinel, nor a payload with an `error.message` string, nor a payload
carrying a `choices[0].delta.content` string (malformed or unparseable JSON
included) is silently skipped: no error is raised and the accumulated
response is unchanged.  Part 1 is the streaming loop of
`handle_streaming_response`; part 2 is the line loop of
`process_stream_chunk`, whose typed delta extraction is
`chatStreamContentOf`. -/
theorem c9_unmatched_frames_skipped :
    (∀ (data : String) (rest : List (Except ApiError String)) (acc : String),
      strStartsWith data "data: " = true →
      strTrim (strDrop data 6) ≠ "[DONE]" →
      errorMessageOf (strDrop data 6) = none →
      deltaContentOf (strDrop data 6) = none →
      handle_stream_go (.ok data :: rest) acc = handle_stream_go rest acc)
    ∧ (∀ (line : String) (rest : List String) (content : String),
      strStartsWith line "data: " = true →
      strTrim (strDrop line 6) ≠ "[DONE]" →
      errorMessageOf (strDrop line 6) = none →
      chatStreamContentOf (strDrop line 6) = none →
      process_lines (line :: rest) content = process_lines rest content) := by
  constructor
  · intro data rest acc h1 h2 h3 h4
    simp [handle_stream_go, h1, h2, h3, h4]
  · intro line rest content h1 h2 h3 h4
    simp [process_lines, h1, h2, h3, h4]

theorem c9_unmatched_frames_skipped_witness :
    strStartsWith "data: \x7bnot json\n\n" "data: " = true
    ∧ strTrim (strDrop "data: \x7bnot json\n\n" 6) ≠ "[DONE]"
    ∧ errorMessageOf (strDrop "data: \x7bnot json\n\n" 6) = none
    ∧ deltaContentOf (strDrop "data: \x7bnot json\n\n" 6) = none
    ∧ chatStreamContentOf (strDrop "data: \x7bnot json\n\n" 6) = none
    ∧ handle_stream_go [.ok "data: \x7bnot json\n\n"] "acc" =
        handle_stream_go [] "acc"
    ∧ process_lines ["data: \x7bnot json\n\n"] "acc" = process_lines [] "acc" :=
  ⟨by decide, by decide, by decide, by decide, by decide,
   c9_unmatched_frames_skipped.1 "data: \x7bnot json\n\n" [] "acc"
     (by decide) (by decide) (by decide) (by decide),
   c9_unmatched_frames_skipped.2 "data: \x7bnot json\n\n" [] "acc"
     (by decide) (by decide) (by decide) (by decide)⟩
